import Mathlib

/-!
Shallow embedding of the transaction-ledger and inventory core of the
telegram-bot-gcp repository (src/utils/bigquery_utils.py,
src/utils/firestore_utils.py, src/services/bot_service.py).

The BigQuery table is modelled as a list of rows in insertion order:
streaming inserts append rows and never update or remove existing rows.
Row fields carry Option values where the underlying table column is
nullable or the Python dict key may be absent (absent and SQL NULL behave
identically in the queries modelled here).  Monetary amounts are modelled
as integers.  Timestamps (lastUpdated, issue timestamps) carry no logic in
the source and are omitted; dates are strings as in the source.
-/

set_option autoImplicit false

namespace TelegramBot

/-- One element of the expenses array of a transaction row. -/
structure Expense where
  description : String
  amount : Int
deriving DecidableEq, Repr

/-- One element of the sales array of a transaction row.  `none` in
quality or quantity models an absent dict key, defaulted by
`sale.get("quality", "regular")` and `sale.get("quantity", 0)` in
firestore_utils.py. -/
structure Sale where
  item : String
  quality : Option String
  quantity : Option Int
  unit_price : Option Int
deriving DecidableEq, Repr

/-- A physical row of the BigQuery transactions table.  `extra` stands for
any further dict keys a row may carry; `dict(original)` copies them
verbatim. -/
structure Row where
  transaction_id : Option String
  operation : Option String
  is_deleted : Option Bool
  date : Option String
  payment_method : Option String
  total_sale_price : Option Int
  sales : List Sale
  expenses : List Expense
  sender_name : Option String
  extra : List (String × String)
deriving DecidableEq, Repr

/-- A row with every nullable field null and empty arrays. -/
def row0 : Row :=
  { transaction_id := none, operation := none, is_deleted := none,
    date := none, payment_method := none, total_sale_price := none,
    sales := [], expenses := [], sender_name := none, extra := [] }

/-- The rows returned by the lookup query of `safe_delete` (lines 53-59 of
bigquery_utils.py): `WHERE transaction_id = @transaction_id AND operation
IS NULL`.  The SQL `LIMIT 1` corresponds to taking the head of this
list. -/
def liveRowsFor (tid : String) (ledger : List Row) : List Row :=
  ledger.filter (fun r => decide (r.transaction_id = some tid ∧ r.operation = none))

/-- The `row.setdefault("transaction_id", str(uuid.uuid4()))` step of
`insert_to_bigquery`; `fresh` stands for the generated uuid. -/
def withTid (fresh : String) (row : Row) : Row :=
  { row with transaction_id := some (row.transaction_id.getD fresh) }

/-- `BigQueryUtils.insert_to_bigquery` (lines 94-108): defaults the
transaction_id, then streams the row into the table.  `fails` is true when
`insert_rows_json` reports row-level errors, in which case a RuntimeError
is raised (modelled as `.error`) and nothing is appended.  On success the
call returns the grown table together with the row as mutated by
`setdefault` (the Python caller observes that mutation). -/
def insert_to_bigquery (fresh : String) (fails : Bool) (row : Row)
    (ledger : List Row) : Except String (List Row × Row) :=
  let row' := withTid fresh row
  if fails then Except.error "BigQuery insert errors"
  else Except.ok (ledger ++ [row'], row')

/-- The shadow dict built by `safe_delete` (lines 71-74): a copy of the
found row with operation set to "deleted", is_deleted set to True and date
reset to the current date in the shop timezone. -/
def shadowOf (today : String) (r : Row) : Row :=
  { r with operation := some "deleted", is_deleted := some true,
           date := some today }

/-- `BigQueryUtils.safe_delete` (lines 41-75): looks up a row with the
given transaction_id and `operation IS NULL`; raises ValueError (modelled
as `.error`) when none exists, otherwise appends the shadow row via
`insert_to_bigquery`.  `today` is the current date string, `fails` the
row-level error outcome of the streaming insert. -/
def safe_delete (today fresh : String) (fails : Bool) (tid : String)
    (ledger : List Row) : Except String (List Row) :=
  match liveRowsFor tid ledger with
  | [] => Except.error ("No matching rows found for transaction_id: " ++ tid)
  | original :: _ =>
    (insert_to_bigquery fresh fails (shadowOf today original) ledger).map Prod.fst

/-- `BigQueryUtils.safe_edit` (lines 77-92): runs `safe_delete`, then
defaults the date of the new data, forces transaction_id to the edited id,
operation to None and is_deleted to False, and inserts the new row. -/
def safe_edit (today fresh : String) (delFails insFails : Bool)
    (tid : String) (new_data : Row) (ledger : List Row) :
    Except String (List Row) :=
  match safe_delete today fresh delFails tid ledger with
  | Except.error e => Except.error e
  | Except.ok ledger₁ =>
    let nd : Row :=
      { new_data with date := some (new_data.date.getD today),
                      transaction_id := some tid,
                      operation := none, is_deleted := some false }
    (insert_to_bigquery fresh insFails nd ledger₁).map Prod.fst

/-- `BigQueryUtils.get_transaction_by_id` (lines 129-153): the query
filters `transaction_id = @tid AND operation IS NULL AND is_deleted =
FALSE` (SQL three-valued logic: a NULL is_deleted row does not match) and
the Python takes the first result row. -/
def get_transaction_by_id (tid : String) (ledger : List Row) : Option Row :=
  (ledger.filter (fun r =>
    decide (r.transaction_id = some tid ∧ r.operation = none ∧
            r.is_deleted = some false))).head?

/-- The membership test of the `unique_transactions` CTE of
`get_closure_report_by_date` (lines 171-180): the transaction_id of the
row is in the set of ids having exactly one physical row in the table.  A
row with NULL transaction_id never satisfies the SQL `IN` predicate. -/
def uniqueTid (ledger : List Row) (r : Row) : Bool :=
  match r.transaction_id with
  | none => false
  | some t => decide
      (ledger.countP (fun s => decide (s.transaction_id = some t)) = 1)

/-- The `unique_transactions` CTE itself: the rows passing `uniqueTid`. -/
def uniqueTransactions (ledger : List Row) : List Row :=
  ledger.filter (uniqueTid ledger)

/-- SQL SUM over the non-null values of a column: NULL on an empty input,
otherwise the integer sum. -/
def sqlSum (xs : List Int) : Option Int :=
  match xs with
  | [] => none
  | _ => some (xs.foldl (· + ·) 0)

/-- The result row of the closure-report query. -/
structure ClosureReport where
  efectivo_sales : Option Int
  transfer_sales : Option Int
  total_expenses : Option Int
deriving DecidableEq, Repr

/-- `BigQueryUtils.get_closure_report_by_date` (lines 155-220): over the
unique transactions, sums total_sale_price for cash rows of the date, for
bank_transfer rows of the date, and the unnested expense amounts of all
rows of the date. -/
def get_closure_report_by_date (date : String) (ledger : List Row) :
    ClosureReport :=
  let uniq := uniqueTransactions ledger
  let cash := (uniq.filter (fun r =>
    decide (r.payment_method = some "cash" ∧ r.date = some date))).filterMap
      Row.total_sale_price
  let transfer := (uniq.filter (fun r =>
    decide (r.payment_method = some "bank_transfer" ∧ r.date = some date))).filterMap
      Row.total_sale_price
  let exps := ((uniq.filter (fun r => decide (r.date = some date))).map
      (fun r => r.expenses.map Expense.amount)).flatten
  { efectivo_sales := sqlSum cash, transfer_sales := sqlSum transfer,
    total_expenses := sqlSum exps }

/-- A document of the `inventory_synonyms` Firestore collection: an alias
plus the canonical item, and optionally a canonical quality
(`data.get("quality", quality)` falls back to the input quality when the
key is absent).  The dict key named alias in the source is `aliasKey`
here, alias being a reserved word in Lean. -/
structure SynDoc where
  aliasKey : String
  item : String
  quality : Option String
deriving DecidableEq, Repr

/-- The Python `str.lower()` used in the alias comparison, modelled
character-wise (mapping `Char.toLower` over the characters is the
specification of `String.toLower`, whose own definition does not reduce
definitionally). -/
def pyLower (s : String) : String := ⟨s.data.map Char.toLower⟩

/-- `FirestoreInventoryManager.resolve_synonyms` (lines 17-23): linear
scan over the synonym documents; the first one whose alias matches the
item case-insensitively wins; with no match the input pair is returned
unchanged. -/
def resolve_synonyms (syns : List SynDoc) (item quality : String) :
    String × String :=
  match syns.find? (fun d => pyLower d.aliasKey == pyLower item) with
  | some d => (d.item, d.quality.getD quality)
  | none => (item, quality)

/-- The Firestore document id `f"{item}_{quality}"` used by the inventory
collection. -/
def invKey (item quality : String) : String := item ++ "_" ++ quality

/-- The `inventory` Firestore collection: document id to stored integer
quantity.  Documents written by the source always carry an integer
quantity; the lastUpdated timestamp and the item/quality mirror fields
carry no logic and are omitted. -/
abbrev Inventory : Type := List (String × Int)

/-- Document lookup: `db.collection("inventory").document(k).get()`;
`none` models a non-existent document (document ids are unique, so the
first entry for a key is the document). -/
def invGet : Inventory → String → Option Int
  | [], _ => none
  | (k', q') :: rest, k => if k' = k then some q' else invGet rest k

/-- Merge-set of the quantity field of document `k`
(`document(k).set({"quantity": q, ...}, merge=True)`): replaces the first
entry for `k` or creates the document. -/
def invSet (inv : Inventory) (k : String) (q : Int) : Inventory :=
  match inv with
  | [] => [(k, q)]
  | (k', q') :: rest =>
    if k' = k then (k, q) :: rest else (k', q') :: invSet rest k q

/-- An entry of the `inventory_issues` collection (the timestamp field is
omitted). -/
structure Issue where
  transaction_id : String
  item : String
  quality : String
  requested_qty : Int
  reason : String
deriving DecidableEq, Repr

/-- The body of the per-sale loop of
`FirestoreInventoryManager.deduct_inventory` (lines 27-68): resolve
synonyms, default the quantity to 0, record a missing-document or
insufficient-stock issue, and write back `max(0, stored - requested)`.
The `int(...)` coercion of the stored quantity is the identity here
because modelled documents store integers. -/
def deductStep (syns : List SynDoc) (tid : String)
    (st : Inventory × List Issue) (sale : Sale) : Inventory × List Issue :=
  let item := (resolve_synonyms syns sale.item (sale.quality.getD "regular")).1
  let quality := (resolve_synonyms syns sale.item (sale.quality.getD "regular")).2
  let quantity := sale.quantity.getD 0
  match invGet st.1 (invKey item quality) with
  | none =>
    (st.1, st.2 ++ [{ transaction_id := tid, item := item, quality := quality,
                      requested_qty := quantity,
                      reason := "no existe en inventario" }])
  | some inventory_qty =>
    (invSet st.1 (invKey item quality) (max 0 (inventory_qty - quantity)),
     if inventory_qty < quantity then
       st.2 ++ [{ transaction_id := tid, item := item, quality := quality,
                  requested_qty := quantity,
                  reason := "no hay suficiente inventario" }]
     else st.2)

/-- `FirestoreInventoryManager.deduct_inventory` (lines 25-73): folds the
loop body over the sale lines; the collected issues are both appended to
the `inventory_issues` collection and returned to the caller. -/
def deduct_inventory (syns : List SynDoc) (sales : List Sale) (tid : String)
    (inv : Inventory) : Inventory × List Issue :=
  sales.foldl (deductStep syns tid) (inv, [])

/-- `FirestoreInventoryManager.update_inventory` (lines 75-79): absolute
merge-set of the resolved key. -/
def update_inventory (syns : List SynDoc) (item quality : String)
    (quantity : Int) (inv : Inventory) : Inventory :=
  invSet inv
    (invKey (resolve_synonyms syns item quality).1
      (resolve_synonyms syns item quality).2) quantity

/-- `FirestoreInventoryManager.restore_inventory` (lines 81-92): adds the
quantity back onto an existing document (clamped at 0 from below), or
falls through to `update_inventory` when the document does not exist
(which resolves synonyms a second time, as the source does). -/
def restore_inventory (syns : List SynDoc) (item quality : String)
    (quantity : Int) (inv : Inventory) : Inventory :=
  let item' := (resolve_synonyms syns item quality).1
  let quality' := (resolve_synonyms syns item quality).2
  match invGet inv (invKey item' quality') with
  | some q0 => invSet inv (invKey item' quality') (max 0 (q0 + quantity))
  | none => update_inventory syns item' quality' quantity inv

/-- Every stored inventory quantity is non-negative. -/
def nonnegInv (inv : Inventory) : Bool :=
  (inv : List (String × Int)).all (fun p => 0 ≤ p.2)

/-- Observable side effects of `BotService._handle_data_insert`, in the
order they are performed. -/
inductive Ev where
  | insertOk
  | deductEv
  | auditLog
deriving DecidableEq, Repr

/-- The persistence effects of `BotService._handle_data_insert` (lines
280-362): with neither sales nor expenses the handler returns before any
write; otherwise the date is defaulted and the row inserted into the
ledger - a failing insert aborts the handler (only an error notification
is sent, nothing else runs); on success the inventory is deducted when
sales exist, and the audit log entry is appended.  The result is the new
ledger, inventory and audit log plus the ordered event trace. -/
def handle_data_insert (syns : List SynDoc) (today fresh : String)
    (insertFails : Bool) (data : Row) (ledger : List Row) (inv : Inventory)
    (audit : List String) :
    List Row × Inventory × List String × List Ev :=
  if data.sales = [] ∧ data.expenses = [] then (ledger, inv, audit, [])
  else
    let data₁ : Row := { data with date := some (data.date.getD today) }
    match insert_to_bigquery fresh insertFails data₁ ledger with
    | Except.error _ => (ledger, inv, audit, [])
    | Except.ok (ledger', data') =>
      let inv' :=
        if data'.sales = [] then inv
        else (deduct_inventory syns data'.sales (data'.transaction_id.getD "") inv).1
      let audit' := audit ++ ["data_insert:" ++ data'.transaction_id.getD ""]
      (ledger', inv', audit',
        Ev.insertOk :: ((if data'.sales = [] then [] else [Ev.deductEv]) ++ [Ev.auditLog]))

/-- Observable steps of `BotService._handle_delete`, in order. -/
inductive DelEv where
  | restoreEv (item quality : String) (quantity : Int)
  | tombstoneAttempt
  | tombstoneOk
deriving DecidableEq, Repr

/-- The persistence effects of `BotService._handle_delete` (lines 78-152)
after argument parsing: look up the live transaction; when absent, reply
and stop.  When found, restore inventory for each sale line, then attempt
the tombstone write via `safe_delete`; an exception there is caught by the
surrounding handler, which only notifies - the inventory restorations are
not rolled back.  The Bool records whether the delete flow completed. -/
def handle_delete (syns : List SynDoc) (today fresh : String)
    (tombstoneFails : Bool) (tid : String) (ledger : List Row)
    (inv : Inventory) :
    List Row × Inventory × List DelEv × Bool :=
  match get_transaction_by_id tid ledger with
  | none => (ledger, inv, [], false)
  | some tx =>
    let inv' := tx.sales.foldl
      (fun acc s => restore_inventory syns s.item (s.quality.getD "regular")
        (s.quantity.getD 0) acc) inv
    let restores := tx.sales.map
      (fun s => DelEv.restoreEv s.item (s.quality.getD "regular") (s.quantity.getD 0))
    match safe_delete today fresh tombstoneFails tid ledger with
    | Except.error _ => (ledger, inv', restores ++ [DelEv.tombstoneAttempt], false)
    | Except.ok ledger' =>
      (ledger', inv', restores ++ [DelEv.tombstoneAttempt, DelEv.tombstoneOk], true)

/-! Helper lemmas shared by several claim proofs. -/

theorem liveRows_head_tid (tid : String) (ledger : List Row) (r : Row)
    (rest : List Row) (h : liveRowsFor tid ledger = r :: rest) :
    r.transaction_id = some tid := by
  have hr : r ∈ liveRowsFor tid ledger := by
    rw [h]; exact List.mem_cons_self r rest
  simp only [liveRowsFor] at hr
  have hp : decide (r.transaction_id = some tid ∧ r.operation = none) = true :=
    (List.mem_filter.mp hr).2
  exact (of_decide_eq_true hp).1

theorem withTid_of_some (fresh : String) (r : Row) (t : String)
    (h : r.transaction_id = some t) : withTid fresh r = r := by
  unfold withTid
  rw [h]
  show { r with transaction_id := some t } = r
  rw [← h]

theorem safe_delete_ok (today fresh tid : String) (ledger : List Row)
    (r : Row) (rest : List Row) (h : liveRowsFor tid ledger = r :: rest) :
    safe_delete today fresh false tid ledger =
      Except.ok (ledger ++ [shadowOf today r]) := by
  have htid : (shadowOf today r).transaction_id = some tid := by
    have ht := liveRows_head_tid tid ledger r rest h
    simpa [shadowOf] using ht
  simp [safe_delete, h, insert_to_bigquery,
    withTid_of_some fresh (shadowOf today r) tid htid, Except.map]

theorem get_transaction_live (tid : String) (ledger : List Row) (tx : Row)
    (h : get_transaction_by_id tid ledger = some tx) :
    tx ∈ liveRowsFor tid ledger := by
  simp only [get_transaction_by_id] at h
  cases hf : ledger.filter (fun r =>
      decide (r.transaction_id = some tid ∧ r.operation = none ∧
              r.is_deleted = some false)) with
  | nil => rw [hf] at h; simp at h
  | cons a l =>
    rw [hf] at h
    simp only [List.head?_cons, Option.some.injEq] at h
    subst h
    have ha : a ∈ ledger.filter (fun r =>
        decide (r.transaction_id = some tid ∧ r.operation = none ∧
                r.is_deleted = some false)) := by
      rw [hf]; exact List.mem_cons_self _ _
    have hm := List.mem_filter.mp ha
    have hp := of_decide_eq_true hm.2
    simp only [liveRowsFor]
    exact List.mem_filter.mpr ⟨hm.1, decide_eq_true ⟨hp.1, hp.2.1⟩⟩

/-- Concrete live row used in several counterexample evaluations. -/
def txRow : Row :=
  { row0 with transaction_id := some "t1", date := some "2024-01-01",
              is_deleted := some false, payment_method := some "cash",
              total_sale_price := some 100 }

/-- Concrete replacement payload for an edit (as produced by the
extractor, without transaction_id). -/
def editData : Row :=
  { row0 with payment_method := some "cash", total_sale_price := some 120 }

/-- Claim C1: false of the code.  The spec invariant says at most one
physical row with operation NULL exists per transaction_id, the
previously-live row no longer counting as live after safe_edit or
safe_delete.  In the source, safe_delete and safe_edit only append rows
via streaming insert and never update or remove the original live row, so
after insert followed by one successful safe_edit the ledger holds two
physical rows with operation NULL for the same transaction_id. -/
theorem C1_two_live_rows_after_safe_edit :
    (safe_edit "2024-01-02" "u2" false false "t1" editData [txRow]).map
        (fun l => (liveRowsFor "t1" l).length) = Except.ok 2 := by
  rfl

/-- Claim C2: false of the code.  The spec says a second safe_delete on
the same transaction_id fails with the not-found error because no live
row remains.  In the source the first safe_delete only appends a
tombstone; the original row still has operation NULL, so the second call
finds it again, succeeds, and appends a second tombstone. -/
theorem C2_second_safe_delete_succeeds :
    safe_delete "2024-01-02" "u1" false "t1" [txRow]
      = Except.ok [txRow, shadowOf "2024-01-02" txRow]
    ∧ safe_delete "2024-01-03" "u3" false "t1"
        [txRow, shadowOf "2024-01-02" txRow]
      = Except.ok [txRow, shadowOf "2024-01-02" txRow,
                   shadowOf "2024-01-03" txRow] := by
  exact ⟨rfl, rfl⟩

/-- Claim C3: on a transaction_id with no live row, safe_delete raises
the not-found ValueError before any insert, and safe_edit propagates that
error before writing its new row; on this path the model returns an error
and no row is ever appended to the ledger. -/
theorem C3_no_live_row_fails_without_append (today fresh : String)
    (delFails insFails : Bool) (tid : String) (new_data : Row)
    (ledger : List Row) (h : liveRowsFor tid ledger = []) :
    safe_delete today fresh delFails tid ledger =
      Except.error ("No matching rows found for transaction_id: " ++ tid)
    ∧ safe_edit today fresh delFails insFails tid new_data ledger =
      Except.error ("No matching rows found for transaction_id: " ++ tid) := by
  have hd : safe_delete today fresh delFails tid ledger =
      Except.error ("No matching rows found for transaction_id: " ++ tid) := by
    simp [safe_delete, h]
  exact ⟨hd, by simp [safe_edit, hd]⟩

/-- Witness for C3 at a concrete empty ledger. -/
theorem C3_witness :
    safe_delete "2024-01-01" "u1" false "t9" [] =
      Except.error ("No matching rows found for transaction_id: " ++ "t9")
    ∧ safe_edit "2024-01-01" "u1" false false "t9" editData [] =
      Except.error ("No matching rows found for transaction_id: " ++ "t9") :=
  C3_no_live_row_fails_without_append "2024-01-01" "u1" false false "t9"
    editData [] (by rfl)

/-- Claim C7: when a live row exists, safe_delete appends exactly one
tombstone row that is a full copy of the found row in which only
operation (now "deleted"), is_deleted (now true) and date (now the
current shop-local date) differ; every other field, including
transaction_id, is copied unchanged. -/
theorem C7_tombstone_is_frame_copy (today fresh tid : String)
    (ledger : List Row) (r : Row) (rest : List Row)
    (h : liveRowsFor tid ledger = r :: rest) :
    safe_delete today fresh false tid ledger =
      Except.ok (ledger ++ [shadowOf today r])
    ∧ (shadowOf today r).operation = some "deleted"
    ∧ (shadowOf today r).is_deleted = some true
    ∧ (shadowOf today r).date = some today
    ∧ (shadowOf today r).transaction_id = r.transaction_id
    ∧ (shadowOf today r).payment_method = r.payment_method
    ∧ (shadowOf today r).total_sale_price = r.total_sale_price
    ∧ (shadowOf today r).sales = r.sales
    ∧ (shadowOf today r).expenses = r.expenses
    ∧ (shadowOf today r).sender_name = r.sender_name
    ∧ (shadowOf today r).extra = r.extra :=
  ⟨safe_delete_ok today fresh tid ledger r rest h,
   rfl, rfl, rfl, rfl, rfl, rfl, rfl, rfl, rfl, rfl⟩

/-- Witness for C7 at a concrete one-row ledger. -/
theorem C7_witness :
    safe_delete "2024-01-02" "u1" false "t1" [txRow] =
      Except.ok ([txRow] ++ [shadowOf "2024-01-02" txRow]) :=
  (C7_tombstone_is_frame_copy "2024-01-02" "u1" "t1" [txRow] txRow []
    (by rfl)).1

/-! Inventory lemmas. -/

theorem invSet_nonneg (k : String) (q : Int) (hq : 0 ≤ q) :
    ∀ inv : Inventory, nonnegInv inv = true → nonnegInv (invSet inv k q) = true := by
  intro inv
  induction inv with
  | nil => intro _; simp [invSet, nonnegInv, hq]
  | cons p rest ih =>
    obtain ⟨k', q'⟩ := p
    intro hinv
    simp only [nonnegInv, List.all_cons, Bool.and_eq_true, decide_eq_true_eq] at hinv
    by_cases hk : k' = k
    · simp only [invSet, if_pos hk, nonnegInv, List.all_cons, Bool.and_eq_true,
        decide_eq_true_eq]
      exact ⟨hq, hinv.2⟩
    · simp only [invSet, if_neg hk, nonnegInv, List.all_cons, Bool.and_eq_true,
        decide_eq_true_eq]
      exact ⟨hinv.1, ih hinv.2⟩

theorem deductStep_nonneg (syns : List SynDoc) (tid : String)
    (st : Inventory × List Issue) (sale : Sale)
    (hinv : nonnegInv st.1 = true) :
    nonnegInv (deductStep syns tid st sale).1 = true := by
  simp only [deductStep]
  cases hg : invGet st.1
      (invKey (resolve_synonyms syns sale.item (sale.quality.getD "regular")).1
        (resolve_synonyms syns sale.item (sale.quality.getD "regular")).2) with
  | none => simpa [hg] using hinv
  | some q0 =>
    simp only [hg]
    exact invSet_nonneg _ _ (le_max_left 0 _) st.1 hinv

theorem deduct_fold_nonneg (syns : List SynDoc) (tid : String) :
    ∀ (sales : List Sale) (st : Inventory × List Issue),
      nonnegInv st.1 = true →
      nonnegInv (sales.foldl (deductStep syns tid) st).1 = true := by
  intro sales
  induction sales with
  | nil => intro st h; simpa using h
  | cons s rest ih =>
    intro st h
    rw [List.foldl_cons]
    exact ih (deductStep syns tid st s) (deductStep_nonneg syns tid st s h)

theorem invSet_invGet_self :
    ∀ (inv : Inventory) (k : String) (q : Int),
      invGet inv k = some q → invSet inv k q = inv := by
  intro inv
  induction inv with
  | nil => intro k q h; simp [invGet] at h
  | cons p rest ih =>
    obtain ⟨k', q'⟩ := p
    intro k q h
    by_cases hk : k' = k
    · have hqq : q' = q := by simpa [invGet, if_pos hk] using h
      simp only [invSet, if_pos hk]
      rw [← hk, hqq]
    · simp only [invGet, if_neg hk] at h
      simp only [invSet, if_neg hk]
      rw [ih k q h]

/-- The single-line sale of the P5 scenario: 12 units of rosa/regular. -/
def saleRosa12 : Sale :=
  { item := "rosa", quality := some "regular", quantity := some 12,
    unit_price := none }

/-- Claim C5: deduction clamps at zero.  All quantities stored by any
sequence of deduct calls stay non-negative when they start non-negative,
and in the P5 scenario (12 units requested, 5 in stock) the issue with
the insufficient-stock reason (literal "no hay suficiente inventario" in
the source) is recorded and returned while the stored quantity becomes 0,
not -7. -/
theorem C5_inventory_floor :
    (∀ (syns : List SynDoc) (ops : List (List Sale × String)) (inv : Inventory),
      nonnegInv inv = true →
      nonnegInv (ops.foldl
        (fun acc op => (deduct_inventory syns op.1 op.2 acc).1) inv) = true)
    ∧ deduct_inventory [] [saleRosa12] "tx" [("rosa_regular", 5)] =
        ([("rosa_regular", 0)],
         [{ transaction_id := "tx", item := "rosa", quality := "regular",
            requested_qty := 12, reason := "no hay suficiente inventario" }]) := by
  constructor
  · intro syns ops
    induction ops with
    | nil => intro inv h; simpa using h
    | cons op rest ih =>
      intro inv h
      rw [List.foldl_cons]
      exact ih _ (deduct_fold_nonneg syns op.2 op.1 (inv, []) h)
  · rfl

/-- Witness for C5 applied to a concrete non-negative inventory and a
two-call deduct sequence. -/
theorem C5_witness :
    nonnegInv ([([saleRosa12], "t1"), ([saleRosa12], "t2")].foldl
      (fun acc op => (deduct_inventory [] op.1 op.2 acc).1)
      [("rosa_regular", 5)]) = true :=
  C5_inventory_floor.1 [] [([saleRosa12], "t1"), ([saleRosa12], "t2")]
    [("rosa_regular", 5)] (by rfl)

/-- Claim C9: a sale line whose dict has no quantity key is treated as a
request for 0 units by `sale.get("quantity", 0)`: when the resolved
inventory document exists with a non-negative integer quantity, the loop
body writes the same quantity back (max(0, q - 0) = q) and records no
issue, so the deduction leaves the inventory unchanged. -/
theorem C9_missing_quantity_is_noop (syns : List SynDoc) (tid : String)
    (inv : Inventory) (issues : List Issue) (sale : Sale) (q : Int)
    (hq : sale.quantity = none)
    (hdoc : invGet inv
      (invKey (resolve_synonyms syns sale.item (sale.quality.getD "regular")).1
        (resolve_synonyms syns sale.item (sale.quality.getD "regular")).2) = some q)
    (hpos : 0 ≤ q) :
    deductStep syns tid (inv, issues) sale = (inv, issues) := by
  simp only [deductStep, hq, Option.getD_none, hdoc]
  rw [if_neg (not_lt.mpr hpos), sub_zero, max_eq_right hpos,
    invSet_invGet_self inv _ q hdoc]

/-- Witness for C9 on a concrete document holding 7 units. -/
theorem C9_witness :
    deductStep [] "tx"
      ([("rosa_regular", 7)], [])
      { item := "rosa", quality := none, quantity := none, unit_price := none } =
      ([("rosa_regular", 7)], []) :=
  C9_missing_quantity_is_noop [] "tx" [("rosa_regular", 7)] []
    { item := "rosa", quality := none, quantity := none, unit_price := none }
    7 rfl (by rfl) (by decide)

/-- The P7 synonym document: alias "rosa ecuador" maps to canonical
("rosa", "special"). -/
def synRosaEcuador : SynDoc :=
  { aliasKey := "rosa ecuador", item := "rosa", quality := some "special" }

/-- The P7 sale line: 5 units of "rosa ecuador" with no quality key. -/
def saleRosaEcuador : Sale :=
  { item := "rosa ecuador", quality := none, quantity := some 5,
    unit_price := none }

/-- Claim C8: synonym resolution.  With no case-insensitive alias match
the input pair is returned unchanged; when the scan finds an entry the
canonical pair of that entry is returned; and in the P7 scenario a sale
of 5 units of "rosa ecuador" deducts from the rosa_special document, not
from a "rosa ecuador_regular" document. -/
theorem C8_synonym_resolution :
    (∀ (syns : List SynDoc) (item quality : String),
      (∀ d ∈ syns, pyLower d.aliasKey ≠ pyLower item) →
      resolve_synonyms syns item quality = (item, quality))
    ∧ (∀ (syns : List SynDoc) (item quality : String) (d : SynDoc) (q : String),
      syns.find? (fun d => pyLower d.aliasKey == pyLower item) = some d →
      d.quality = some q →
      resolve_synonyms syns item quality = (d.item, q))
    ∧ deduct_inventory [synRosaEcuador] [saleRosaEcuador] "tx"
        [("rosa_special", 10)] = ([("rosa_special", 5)], [])
    ∧ invGet (deduct_inventory [synRosaEcuador] [saleRosaEcuador] "tx"
        [("rosa_special", 10)]).1 "rosa ecuador_regular" = none := by
  refine ⟨?_, ?_, by rfl, by rfl⟩
  · intro syns item quality h
    have hf : syns.find? (fun d => pyLower d.aliasKey == pyLower item) = none :=
      List.find?_eq_none.mpr (fun d hd => by
        simpa using h d hd)
    simp [resolve_synonyms, hf]
  · intro syns item quality d q hfind hq
    simp [resolve_synonyms, hfind, hq]

/-- Witness for C8 on a one-entry synonym table. -/
theorem C8_witness :
    resolve_synonyms [synRosaEcuador] "Rosa Ecuador" "regular" = ("rosa", "special") :=
  C8_synonym_resolution.2.1 [synRosaEcuador] "Rosa Ecuador" "regular"
    synRosaEcuador "special" (by rfl) rfl

/-- Concrete insert payload with one sale line, as handed over by the
extractor (no transaction_id). -/
def insertData : Row :=
  { row0 with sales := [saleRosa12], total_sale_price := some 10,
              payment_method := some "cash" }

/-- Claim C6: when the ledger write reports row-level errors the whole
insert operation fails and nothing else runs: ledger, inventory and audit
log are unchanged and the event trace is empty; and in every run of the
handler, a deduction or audit-log event can only appear when the insert
did not fail, with the successful insert event first in the trace. -/
theorem C6_insert_is_durability_checkpoint :
    (∀ (syns : List SynDoc) (today fresh : String) (data : Row)
      (ledger : List Row) (inv : Inventory) (audit : List String),
      handle_data_insert syns today fresh true data ledger inv audit =
        (ledger, inv, audit, []))
    ∧ (∀ (syns : List SynDoc) (today fresh : String) (fails : Bool)
      (data : Row) (ledger : List Row) (inv : Inventory) (audit : List String)
      (ev : Ev),
      ev ∈ (handle_data_insert syns today fresh fails data ledger inv audit).2.2.2 →
      fails = false ∧
      (handle_data_insert syns today fresh fails data ledger inv audit).2.2.2.head?
        = some Ev.insertOk) := by
  constructor
  · intro syns today fresh data ledger inv audit
    by_cases h : data.sales = [] ∧ data.expenses = []
    · simp [handle_data_insert, h]
    · simp [handle_data_insert, h, insert_to_bigquery]
  · intro syns today fresh fails data ledger inv audit ev hmem
    by_cases h : data.sales = [] ∧ data.expenses = []
    · simp [handle_data_insert, h] at hmem
    · cases fails with
      | true => simp [handle_data_insert, h, insert_to_bigquery] at hmem
      | false =>
        refine ⟨rfl, ?_⟩
        simp [handle_data_insert, h, insert_to_bigquery]

/-- Witness for C6 on a concrete successful insert with one sale line. -/
theorem C6_witness :
    false = false ∧
    (handle_data_insert [] "2024-01-01" "u1" false insertData [] [] []).2.2.2.head?
      = some Ev.insertOk :=
  C6_insert_is_durability_checkpoint.2 [] "2024-01-01" "u1" false insertData
    [] [] [] Ev.insertOk (by decide)

/-- Claim C10: in the delete flow, once the live transaction is found,
every sale line is restored to inventory strictly before the tombstone
write is attempted; when that write then fails the handler leaves the
ledger untouched (so the live row still exists) while the restored
inventory stays in place. -/
theorem C10_restore_precedes_tombstone (syns : List SynDoc)
    (today fresh tid : String) (ledger : List Row) (inv : Inventory)
    (tx : Row) (h : get_transaction_by_id tid ledger = some tx) :
    handle_delete syns today fresh true tid ledger inv =
      (ledger,
       tx.sales.foldl (fun acc s => restore_inventory syns s.item
         (s.quality.getD "regular") (s.quantity.getD 0) acc) inv,
       tx.sales.map (fun s => DelEv.restoreEv s.item (s.quality.getD "regular")
         (s.quantity.getD 0)) ++ [DelEv.tombstoneAttempt],
       false)
    ∧ liveRowsFor tid ledger ≠ [] := by
  have hmem := get_transaction_live tid ledger tx h
  have hne : liveRowsFor tid ledger ≠ [] := List.ne_nil_of_mem hmem
  refine ⟨?_, hne⟩
  cases hl : liveRowsFor tid ledger with
  | nil => exact absurd hl hne
  | cons r rest =>
    have hsd : safe_delete today fresh true tid ledger =
        Except.error "BigQuery insert errors" := by
      simp [safe_delete, hl, insert_to_bigquery, Except.map]
    simp [handle_delete, h, hsd]

/-- Concrete live transaction with one sale line, for the C10 witness. -/
def delRow : Row :=
  { row0 with transaction_id := some "t1", is_deleted := some false,
              date := some "2024-01-01",
              sales := [{ item := "rosa", quality := none,
                          quantity := some 3, unit_price := none }] }

/-- Witness for C10: the tombstone write fails, yet the 3 sold units are
already back in inventory (2 becomes 5) and the ledger is unchanged. -/
theorem C10_witness :
    handle_delete [] "2024-01-05" "u9" true "t1" [delRow] [("rosa_regular", 2)] =
      ([delRow], [("rosa_regular", 5)],
       [DelEv.restoreEv "rosa" "regular" 3, DelEv.tombstoneAttempt], false) :=
  ((C10_restore_precedes_tombstone [] "2024-01-05" "u9" "t1" [delRow]
    [("rosa_regular", 2)] delRow (by rfl)).1).trans (by rfl)

/-! Lemmas for the closure-report claim. -/

theorem countP_tid_filter_ne (L : List Row) (t v : String) (hvt : v ≠ t) :
    (L.filter (fun r => decide (r.transaction_id ≠ some t))).countP
        (fun s => decide (s.transaction_id = some v))
      = L.countP (fun s => decide (s.transaction_id = some v)) := by
  rw [List.countP_filter]
  apply List.countP_congr
  intro a _
  simp only [Bool.and_eq_true, decide_eq_true_eq]
  constructor
  · exact fun hp => hp.1
  · intro hp
    refine ⟨hp, ?_⟩
    rw [hp]
    simp [hvt]

theorem uniqueTransactions_drop (L : List Row) (t : String)
    (h : 2 ≤ L.countP (fun s => decide (s.transaction_id = some t))) :
    uniqueTransactions (L.filter (fun r => decide (r.transaction_id ≠ some t)))
      = uniqueTransactions L := by
  unfold uniqueTransactions
  have stepA :
      (L.filter (fun r => decide (r.transaction_id ≠ some t))).filter
          (uniqueTid (L.filter (fun r => decide (r.transaction_id ≠ some t))))
        = (L.filter (fun r => decide (r.transaction_id ≠ some t))).filter
          (uniqueTid L) := by
    apply List.filter_congr
    intro a ha
    have hq : a.transaction_id ≠ some t :=
      of_decide_eq_true (List.mem_filter.mp ha).2
    cases hv : a.transaction_id with
    | none => simp [uniqueTid, hv]
    | some v =>
      have hvt : v ≠ t := fun e => hq (by rw [hv, e])
      simp only [uniqueTid, hv]
      rw [countP_tid_filter_ne L t v hvt]
  rw [stepA, List.filter_filter]
  apply List.filter_congr
  intro a _
  cases hv : a.transaction_id with
  | none => simp [uniqueTid, hv]
  | some v =>
    by_cases hc : L.countP (fun s => decide (s.transaction_id = some v)) = 1
    · have hvt : v ≠ t := by
        intro e
        rw [e] at hc
        omega
      simp [uniqueTid, hv, hc, hvt]
    · simp [uniqueTid, hv, hc]

/-- The first P6 row: a cash sale of 100 on 2024-01-01. -/
def p6cash : Row :=
  { row0 with transaction_id := some "a", date := some "2024-01-01",
              payment_method := some "cash", total_sale_price := some 100 }

/-- The second P6 row: a bank-transfer sale of 50 on 2024-01-01. -/
def p6transfer : Row :=
  { row0 with transaction_id := some "b", date := some "2024-01-01",
              payment_method := some "bank_transfer",
              total_sale_price := some 50 }

/-- The third P6 row: a single expense of 30 on 2024-01-01. -/
def p6expense : Row :=
  { row0 with transaction_id := some "c", date := some "2024-01-01",
              expenses := [{ description := "gasto", amount := 30 }] }

/-- Claim C4: the closure report aggregates only over transaction_ids
with exactly one physical row - removing all rows of any id that occurs
at least twice leaves the report unchanged - and on the three one-row P6
transactions it returns cash 100, transfer 50, expenses 30. -/
theorem C4_closure_aggregation :
    (∀ (ledger : List Row) (t date : String),
      2 ≤ ledger.countP (fun s => decide (s.transaction_id = some t)) →
      get_closure_report_by_date date
          (ledger.filter (fun r => decide (r.transaction_id ≠ some t)))
        = get_closure_report_by_date date ledger)
    ∧ get_closure_report_by_date "2024-01-01" [p6cash, p6transfer, p6expense] =
        { efectivo_sales := some 100, transfer_sales := some 50,
          total_expenses := some 30 } := by
  constructor
  · intro ledger t date h
    unfold get_closure_report_by_date
    rw [uniqueTransactions_drop ledger t h]
  · rfl

/-- Witness for C4: a ledger where t1 has two physical rows (a live row
and its tombstone); dropping both leaves the closure report unchanged. -/
theorem C4_witness :
    get_closure_report_by_date "2024-01-01"
        (([txRow, shadowOf "2024-01-02" txRow, p6expense]).filter
          (fun r => decide (r.transaction_id ≠ some "t1")))
      = get_closure_report_by_date "2024-01-01"
          [txRow, shadowOf "2024-01-02" txRow, p6expense] :=
  C4_closure_aggregation.1 [txRow, shadowOf "2024-01-02" txRow, p6expense]
    "t1" "2024-01-01" (by decide)

end TelegramBot
